import Mathlib

/-!
Verification development for the GoVirtualMachine repository ("Susan" VM).

The Go sources are shallowly embedded below, package by package:
  * package token        -> TokenType, Token
  * package lexer        -> Lexer and its methods (GetNextChar, IgnoreWhiteSpace,
                            Delimiter, Register, Integer, RegisterIndex, Command,
                            Shape, GetNextToken)
  * package instructions -> Instruction with the GetOpCode/GetArg1/GetArg2 accessors
  * package parser       -> Parser.New, Parser.Consume, Parser.Instruction
  * package interpreter  -> WriteTo, ReadFrom, CheckJump, JumpTo, Add, AddV,
                            LoadImmediate, PrintToStdOut, PrintRegisters, Draw,
                            Blink, DecodeAndDispatch, Interpret
  * package vm           -> VirtualMemory, NewVirtualMemory, ParseInstructions,
                            Execute

Modelling conventions:
  * A Go string is a byte slice; lines of source text are embedded as `List Nat`
    (byte values).  The `unicode` character classes, which Go evaluates on the
    rune obtained from a single byte (hence on Latin-1 code points), are embedded
    as Boolean predicates on byte values below.
  * Go `int32` values are embedded as `Int` together with explicit wrapping
    (`wrap32`) at the arithmetic operations where Go's int32 arithmetic can
    overflow.
  * Go errors are embedded as the inductive `GvmError`, one constructor per
    distinct `fmt.Errorf` site reachable in the embedded code; Go runtime panics
    (slice index out of range, method call on a nil interface value, negative
    `strings.Repeat` count) are embedded as the `goPanic` error value, since a
    panic likewise aborts the surrounding computation.
  * Console output (`fmt.Printf` and the cosmetic shape/star rendering) is
    embedded as a trace of `Output` events returned alongside the new state.
-/

/-- Byte value of the character put in a string literal, for readable inputs.
All program text in this development is ASCII, where Lean character codes and
Go byte values agree. -/
def strToBytes (s : String) : List Nat :=
  s.data.map (fun c => c.toNat)

/-- Go `unicode.IsSpace` restricted to a single byte (Latin-1 fast path):
tab, newline, vertical tab, form feed, carriage return, space, NEL, NBSP. -/
def isSpaceB (b : Nat) : Bool :=
  b = 9 || b = 10 || b = 11 || b = 12 || b = 13 || b = 32 || b = 133 || b = 160

/-- Go `unicode.IsDigit` restricted to a single byte: the ASCII digits. -/
def isDigitB (b : Nat) : Bool :=
  48 ≤ b && b ≤ 57

/-- Go `unicode.IsUpper` restricted to a single byte: A-Z and the Latin-1
uppercase letters. -/
def isUpperB (b : Nat) : Bool :=
  (65 ≤ b && b ≤ 90) || (192 ≤ b && b ≤ 214) || (216 ≤ b && b ≤ 222)

/-- Go `unicode.IsLower` restricted to a single byte: a-z and the Latin-1
lowercase letters. -/
def isLowerB (b : Nat) : Bool :=
  (97 ≤ b && b ≤ 122) || b = 181 || (223 ≤ b && b ≤ 246) || (248 ≤ b && b ≤ 255)

/-- Go `unicode.IsPunct` restricted to a single byte (Unicode category P in
Latin-1). -/
def isPunctB (b : Nat) : Bool :=
  (33 ≤ b && b ≤ 35) || (37 ≤ b && b ≤ 42) || (44 ≤ b && b ≤ 47) ||
  b = 58 || b = 59 || b = 63 || b = 64 || (91 ≤ b && b ≤ 93) || b = 95 ||
  b = 123 || b = 125 || b = 161 || b = 167 || b = 171 || b = 182 || b = 183 ||
  b = 187 || b = 191

/-- Go `unicode.IsSymbol` restricted to a single byte (Unicode category S in
Latin-1). -/
def isSymbolB (b : Nat) : Bool :=
  b = 36 || b = 43 || b = 60 || b = 61 || b = 62 || b = 94 || b = 96 ||
  b = 124 || b = 126 || (162 ≤ b && b ≤ 166) || b = 168 || b = 169 ||
  b = 172 || b = 174 || b = 175 || b = 176 || b = 177 || b = 180 ||
  b = 184 || b = 215 || b = 247

/-- `math.MaxInt32`. -/
def maxInt32 : Int := 2 ^ 31 - 1

/-- `math.MinInt32`. -/
def minInt32 : Int := -(2 ^ 31)

/-- Wrapping of an integer into Go's int32 range, used at the points where the
Go source performs int32 arithmetic that can overflow. -/
def wrap32 (n : Int) : Int :=
  (n + 2 ^ 31) % 2 ^ 32 - 2 ^ 31

/-- The error values of the system, one constructor per distinct `fmt.Errorf`
site of the embedded code.  `goPanic` stands for a Go runtime panic (slice
index out of range, method call on a nil interface, negative repeat count). -/
inductive GvmError where
  /-- lexer: "syntax error: unexpected INT (missing delimiter)" -/
  | intMissingDelimiter
  /-- lexer: "failed to convert input to integer" (wraps the strconv error) -/
  | intConvert
  /-- lexer: "register integer overflow error" -/
  | intOverflow
  /-- lexer: "register integer underflow error" -/
  | intUnderflow
  /-- lexer: "unexpected REG (missing delimiter)" -/
  | regMissingDelimiter
  /-- lexer: "missing register index." -/
  | regMissingIndex
  /-- lexer: "register indices must be between 0 and 9." -/
  | regOutOfRange
  /-- lexer: "invalid command: max length reached (10)." -/
  | commandTooLong
  /-- lexer: "shape declaration must be preceded by a delimiter" -/
  | shapeMissingDelimiter
  /-- lexer: "invalid shape." (length bound exceeded) -/
  | shapeTooLong
  /-- lexer: "missing shape after the shape marker" -/
  | shapeMissing
  /-- lexer: "invalid shape: ..." (unknown shape name) -/
  | shapeUnknown (s : List Nat)
  /-- lexer: "input is case sensitive: invalid ..." -/
  | caseSensitive (b : Nat)
  /-- lexer: "invalid character: ..." -/
  | invalidCharacter (b : Nat)
  /-- lexer: "undefined: ..." (unknown command word) -/
  | undefinedCommand (s : List Nat)
  /-- lexer: "unrecognized symbol ..." -/
  | unrecognizedSymbol (b : Nat)
  /-- parser: "syntax error: unexpected ..." (token kind mismatch in Consume) -/
  | syntaxUnexpected (t : String)
  /-- parser: "default case: invalid ..." (no grammar rule for the first token) -/
  | parserInvalidToken
  /-- interpreter: "invalid command ..." (unknown opcode in DecodeAndDispatch) -/
  | invalidOpcode
  /-- interpreter: "write to R0: permission denied" -/
  | writeR0ReadOnly
  /-- interpreter: "invalid register: ..." -/
  | invalidRegister (r : Int)
  /-- interpreter: "JUMP at addr pc to addr: infinite loop warning." -/
  | jumpInfiniteLoop (pc addr : Int)
  /-- interpreter: "JUMP addr invalid: segmentation violation." -/
  | jumpSegfault
  /-- interpreter: "ADDV instruction: please use values less than 10" -/
  | addvRange
  /-- interpreter: "invalid shape id: ..." -/
  | invalidShape (s : Int)
  /-- a Go runtime panic -/
  | goPanic
  deriving DecidableEq, Repr

/-- Package token: the token kinds, declared as string constants in Go. -/
inductive TokenType where
  | INT | REG | COMMA | LDI | STDOUT | JUMP | ADD | ADDV | DRAW | BLINK
  | SHAPE | PRINTR | EOF
  deriving DecidableEq, Repr

/-- Package token: `Token` with a kind and an int32 value. -/
structure Token where
  tokenType : TokenType
  value : Int
  deriving DecidableEq, Repr

/-- Package token: `New`. -/
def Token.New (tokenType : TokenType) (value : Int) : Token :=
  ⟨tokenType, value⟩

/-- Package lexer: the lexer state.  The Go struct additionally caches the
byte `CurrentChar`, which always equals `Input[Position]` when the position is
in range and the sentinel 0 otherwise (`New` and `GetNextChar` maintain this);
here it is computed on demand by `Lexer.currentChar`. -/
structure Lexer where
  input : List Nat
  position : Nat
  deriving DecidableEq, Repr

/-- The cached `CurrentChar` of the Go lexer: the byte at the current position,
or the sentinel 0 past the end of the input. -/
def Lexer.currentChar (lex : Lexer) : Nat :=
  lex.input.getD lex.position 0

/-- Package lexer: `New`.  Position 0; the cached current character is the
first input byte, or 0 for empty input, as computed by `currentChar`. -/
def Lexer.New (input : List Nat) : Lexer :=
  ⟨input, 0⟩

/-- Package lexer: `GetNextChar` advances the position; the cached current
character becomes the byte there, or the sentinel 0 past the end. -/
def Lexer.GetNextChar (lex : Lexer) : Lexer :=
  ⟨lex.input, lex.position + 1⟩

/-- The loop of `IgnoreWhiteSpace`, with the iteration budget `gas` made a
structural argument.  Each iteration advances the position by one, so a budget
of `input.length - position` is exact: when it runs out the position is past
the end and the current character is already the sentinel 0, which is when the
Go loop stops as well. -/
def Lexer.ignoreWhiteSpaceGo (gas : Nat) (lex : Lexer) : Lexer :=
  match gas with
  | 0 => lex
  | gas + 1 =>
    if lex.currentChar ≠ 0 ∧ isSpaceB lex.currentChar then
      Lexer.ignoreWhiteSpaceGo gas lex.GetNextChar
    else
      lex

/-- Package lexer: `IgnoreWhiteSpace` advances while the current character is
nonzero whitespace. -/
def Lexer.IgnoreWhiteSpace (lex : Lexer) : Lexer :=
  Lexer.ignoreWhiteSpaceGo (lex.input.length - lex.position) lex

/-- Package lexer: `Delimiter` — was the previous byte a space or a comma?
At position 0 the answer is false (there is no previous byte). -/
def Lexer.Delimiter (lex : Lexer) : Bool :=
  if lex.position > 0 then
    let previousChar := lex.input.getD (lex.position - 1) 0
    previousChar = 32 || previousChar = 44
  else
    false

/-- Package lexer: `Register` — was the previous byte the register marker
`r` or `R`? -/
def Lexer.Register (lex : Lexer) : Bool :=
  if lex.position > 0 then
    let previousChar := lex.input.getD (lex.position - 1) 0
    previousChar = 114 || previousChar = 82
  else
    false

/-- Go `strconv.ParseInt(s, 10, 32)` restricted to the digit-only strings the
lexer builds: fails on the empty string (ErrSyntax) and on values outside the
int32 range (ErrRange); otherwise returns the decimal value. -/
def strconvParseInt32 (s : List Nat) : Except Unit Int :=
  if s.isEmpty then .error ()
  else
    let v : Nat := s.foldl (fun acc d => acc * 10 + (d - 48)) 0
    if (v : Int) > maxInt32 then .error () else .ok (v : Int)

/-- The digit-accumulation loop inside `Lexer.Integer` (`integerString += ...`
while the current character is a nonzero digit), with the accumulated string
explicit and the iteration budget `gas` a structural argument (exact for a
budget of `input.length - position`, as in `ignoreWhiteSpaceGo`). -/
def Lexer.collectDigitsGo (gas : Nat) (acc : List Nat) (lex : Lexer) :
    List Nat × Lexer :=
  match gas with
  | 0 => (acc, lex)
  | gas + 1 =>
    if lex.currentChar ≠ 0 ∧ isDigitB lex.currentChar then
      Lexer.collectDigitsGo gas (acc ++ [lex.currentChar]) lex.GetNextChar
    else
      (acc, lex)

/-- The digit-accumulation loop of `Lexer.Integer` from the current state. -/
def Lexer.collectDigits (acc : List Nat) (lex : Lexer) : List Nat × Lexer :=
  Lexer.collectDigitsGo (lex.input.length - lex.position) acc lex

/-- Package lexer: `Integer`.  Requires the digits to follow a register marker
or a delimiter; accumulates the digit run and parses it as a 32-bit integer.
The explicit overflow and underflow checks after the parse reproduce the
source; they are unreachable because `ParseInt` with bit size 32 already
rejects every value outside the int32 range. -/
def Lexer.Integer (lex : Lexer) : Except GvmError (Int × Lexer) :=
  if ¬ lex.Register ∧ ¬ lex.Delimiter then
    .error .intMissingDelimiter
  else
    let p := Lexer.collectDigits [] lex
    match strconvParseInt32 p.1 with
    | .error _ => .error .intConvert
    | .ok integer =>
      if integer > maxInt32 then .error .intOverflow
      else if integer < minInt32 then .error .intUnderflow
      else .ok (integer, p.2)

/-- Package lexer: `RegisterIndex`.  The register marker must be preceded by a
delimiter; then the index is read as an integer and must be at most 9. -/
def Lexer.RegisterIndex (lex : Lexer) : Except GvmError (Int × Lexer) :=
  if ¬ lex.Delimiter then
    .error .regMissingDelimiter
  else
    let lex1 := lex.GetNextChar
    if isSpaceB lex1.currentChar then .error .regMissingIndex
    else
      match lex1.Integer with
      | .error e => .error e
      | .ok (registerIndex, lex2) =>
        if registerIndex > 9 then .error .regOutOfRange
        else .ok (registerIndex, lex2)

/-- The accumulation loop inside `Lexer.Command`: collect uppercase bytes,
failing once the builder already holds more than 10 of them.  The iteration
budget `gas` is a structural argument, exact as in `ignoreWhiteSpaceGo`. -/
def Lexer.commandGo (gas : Nat) (acc : List Nat) (lex : Lexer) :
    Except GvmError (List Nat × Lexer) :=
  match gas with
  | 0 => .ok (acc, lex)
  | gas + 1 =>
    if lex.currentChar ≠ 0 ∧ isUpperB lex.currentChar then
      if acc.length > 10 then .error .commandTooLong
      else Lexer.commandGo gas (acc ++ [lex.currentChar]) lex.GetNextChar
    else
      .ok (acc, lex)

/-- Package lexer: `Command` builds the uppercase command word. -/
def Lexer.Command (lex : Lexer) : Except GvmError (List Nat × Lexer) :=
  Lexer.commandGo (lex.input.length - lex.position) [] lex

/-- The accumulation loop inside `Lexer.Shape`: collect lowercase bytes,
failing once the builder already holds more than 6 of them.  The iteration
budget `gas` is a structural argument, exact as in `ignoreWhiteSpaceGo`. -/
def Lexer.shapeGo (gas : Nat) (acc : List Nat) (lex : Lexer) :
    Except GvmError (List Nat × Lexer) :=
  match gas with
  | 0 => .ok (acc, lex)
  | gas + 1 =>
    if lex.currentChar ≠ 0 ∧ isLowerB lex.currentChar then
      if acc.length > 6 then .error .shapeTooLong
      else Lexer.shapeGo gas (acc ++ [lex.currentChar]) lex.GetNextChar
    else
      .ok (acc, lex)

/-- Package lexer: `Shape`, called on the shape marker byte.  The marker must
be preceded by a delimiter; the lowercase shape name that follows must be
nonempty. -/
def Lexer.Shape (lex : Lexer) : Except GvmError (List Nat × Lexer) :=
  if ¬ lex.Delimiter then
    .error .shapeMissingDelimiter
  else
    match Lexer.shapeGo (lex.input.length - lex.GetNextChar.position) []
        lex.GetNextChar with
    | .error e => .error e
    | .ok (s, lex1) =>
      if s.isEmpty then .error .shapeMissing else .ok (s, lex1)


/-- Byte string of the heart shape name. -/
def heartBytes : List Nat := strToBytes (r"heart")

/-- Byte string of the bird shape name. -/
def birdBytes : List Nat := strToBytes (r"bird")

/-- Byte string of the LDI mnemonic. -/
def ldiBytes : List Nat := strToBytes (r"LDI")

/-- Byte string of the STDOUT mnemonic. -/
def stdoutBytes : List Nat := strToBytes (r"STDOUT")

/-- Byte string of the PRINTR mnemonic. -/
def printrBytes : List Nat := strToBytes (r"PRINTR")

/-- Byte string of the JUMP mnemonic. -/
def jumpBytes : List Nat := strToBytes (r"JUMP")

/-- Byte string of the ADD mnemonic. -/
def addBytes : List Nat := strToBytes (r"ADD")

/-- Byte string of the ADDV mnemonic. -/
def addvBytes : List Nat := strToBytes (r"ADDV")

/-- Byte string of the DRAW mnemonic. -/
def drawBytes : List Nat := strToBytes (r"DRAW")

/-- Byte string of the BLINK mnemonic. -/
def blinkBytes : List Nat := strToBytes (r"BLINK")

/-- The per-character dispatch of `GetNextToken`, reached with the current
character not whitespace (or the exhaustion sentinel 0).  The cases appear in
source order. -/
def Lexer.getNextTokenDispatch (lex : Lexer) : Except GvmError (Token × Lexer) :=
  if lex.currentChar = 0 then
    .ok (Token.New .EOF 0, lex)
  else if lex.currentChar = 114 ∨ lex.currentChar = 82 then
    -- unicode.ToLower of the current byte equals the register marker
    match lex.RegisterIndex with
    | .error e => .error e
    | .ok (regIndex, lex1) => .ok (Token.New .REG regIndex, lex1)
  else if isDigitB lex.currentChar then
    match lex.Integer with
    | .error e => .error e
    | .ok (integer, lex1) => .ok (Token.New .INT integer, lex1)
  else if lex.currentChar = 44 then
    .ok (Token.New .COMMA 0, lex.GetNextChar)
  else if lex.currentChar = 36 then
    match lex.Shape with
    | .error e => .error e
    | .ok (shape, lex1) =>
      if shape = heartBytes then .ok (Token.New .SHAPE 1, lex1)
      else if shape = birdBytes then .ok (Token.New .SHAPE 2, lex1)
      else .error (.shapeUnknown shape)
  else if isLowerB lex.currentChar then
    .error (.caseSensitive lex.currentChar)
  else if isPunctB lex.currentChar ∨ isSymbolB lex.currentChar then
    .error (.invalidCharacter lex.currentChar)
  else if isUpperB lex.currentChar then
    match lex.Command with
    | .error e => .error e
    | .ok (command, lex1) =>
      if command = ldiBytes then .ok (Token.New .LDI 0, lex1)
      else if command = stdoutBytes then .ok (Token.New .STDOUT 0, lex1)
      else if command = printrBytes then .ok (Token.New .PRINTR 0, lex1)
      else if command = jumpBytes then .ok (Token.New .JUMP 0, lex1)
      else if command = addBytes then .ok (Token.New .ADD 0, lex1)
      else if command = addvBytes then .ok (Token.New .ADDV 0, lex1)
      else if command = drawBytes then .ok (Token.New .DRAW 0, lex1)
      else if command = blinkBytes then .ok (Token.New .BLINK 0, lex1)
      else .error (.undefinedCommand command)
  else
    .error (.unrecognizedSymbol lex.currentChar)

/-- Package lexer: `GetNextToken`.  The Go source loops while the current
character is nonzero; the whitespace case is the only one that continues the
loop, and it consumes every consecutive whitespace byte, so the loop equals:
skip all leading whitespace, then return EOF on exhaustion or dispatch once on
the first non-space character (`getNextTokenDispatch`). -/
def Lexer.GetNextToken (lex : Lexer) : Except GvmError (Token × Lexer) :=
  lex.IgnoreWhiteSpace.getNextTokenDispatch

/-- Package instructions: the tagged union behind the Go `Instruction`
interface: Binary, Unary, Nullary and Error variants.  The Error variant
carries the error from the failed parse (never placed in the code block,
because the orchestrator aborts on the first parse failure). -/
inductive Instruction where
  | binary (opCode arg1 arg2 : Int)
  | unary (opCode arg1 : Int)
  | nullary (opCode : Int)
  | error (e : GvmError)
  deriving DecidableEq, Repr

/-- Package instructions: the `GetOpCode` accessor; the Error variant
returns 0. -/
def Instruction.GetOpCode : Instruction → Int
  | .binary opCode _ _ => opCode
  | .unary opCode _ => opCode
  | .nullary opCode => opCode
  | .error _ => 0

/-- Package instructions: the `GetArg1` accessor; absent arguments are 0. -/
def Instruction.GetArg1 : Instruction → Int
  | .binary _ arg1 _ => arg1
  | .unary _ arg1 => arg1
  | .nullary _ => 0
  | .error _ => 0

/-- Package instructions: the `GetArg2` accessor; absent arguments are 0. -/
def Instruction.GetArg2 : Instruction → Int
  | .binary _ _ arg2 => arg2
  | .unary _ _ => 0
  | .nullary _ => 0
  | .error _ => 0

/-- The opcode constants, declared identically (duplicated) in the parser and
interpreter packages of the source. -/
def OPCODE_STDOUT : Int := 0x00

/-- Opcode of LDI. -/
def OPCODE_LDI : Int := 0x01

/-- Opcode of JUMP. -/
def OPCODE_JUMP : Int := 0x02

/-- Opcode of ADD. -/
def OPCODE_ADD : Int := 0x17

/-- Opcode of ADDV. -/
def OPCODE_ADDV : Int := 0x18

/-- Opcode of DRAW. -/
def OPCODE_DRAW : Int := 0x19

/-- Opcode of BLINK. -/
def OPCODE_BLINK : Int := 0x20

/-- Opcode of PRINTR. -/
def OPCODE_PRINTR : Int := 0x21

/-- Package parser: a lexer plus the one-token lookahead. -/
structure Parser where
  lex : Lexer
  currentToken : Token
  deriving DecidableEq, Repr

/-- Package parser: `New` builds a lexer for the line and pulls the first
token.  The Go function returns the partially built parser together with the
error; every caller in the repository aborts when the error is set, so the
failure is embedded as `Except.error`. -/
def Parser.New (input : List Nat) : Except GvmError Parser :=
  let lex := Lexer.New input
  match lex.GetNextToken with
  | .error e => .error e
  | .ok (currentToken, lex1) => .ok ⟨lex1, currentToken⟩

/-- Package parser: `Consume` checks the current token kind against the
expected kind and pulls the next token from the lexer. -/
def Parser.Consume (p : Parser) (expectedType : TokenType) :
    Except GvmError Parser :=
  if p.currentToken.tokenType ≠ expectedType then
    .error (.syntaxUnexpected (toString (repr p.currentToken.tokenType)))
  else
    match p.lex.GetNextToken with
    | .error e => .error e
    | .ok (currentToken, lex1) => .ok ⟨lex1, currentToken⟩

/-- Package parser: `Instruction` dispatches on the current token kind to the
per-mnemonic grammar rule and encodes the bytecode instruction.  On every
failure the Go source returns an Error-variant instruction alongside the
error; every caller aborts on the error, so the failure is embedded as
`Except.error`. -/
def Parser.Instruction (p : Parser) : Except GvmError Instruction :=
  let currentToken := p.currentToken
  match currentToken.tokenType with
  | .JUMP => do
    -- JUMP INT (address)
    let p ← p.Consume .JUMP
    let currentToken := p.currentToken
    let _ ← p.Consume .INT
    let jumpTo := currentToken.value
    return .unary OPCODE_JUMP jumpTo
  | .LDI => do
    -- LDI REG COMMA INT
    let p ← p.Consume .LDI
    let currentToken := p.currentToken
    let p ← p.Consume .REG
    let regIndex := currentToken.value
    let p ← p.Consume .COMMA
    let currentToken := p.currentToken
    let _ ← p.Consume .INT
    let loadValue := currentToken.value
    return .binary OPCODE_LDI regIndex loadValue
  | .ADD => do
    -- ADD REG COMMA REG
    let p ← p.Consume .ADD
    let currentToken := p.currentToken
    let p ← p.Consume .REG
    let regIndex1 := currentToken.value
    let p ← p.Consume .COMMA
    let currentToken := p.currentToken
    let _ ← p.Consume .REG
    let regIndex2 := currentToken.value
    return .binary OPCODE_ADD regIndex1 regIndex2
  | .ADDV => do
    -- ADDV REG COMMA REG
    let p ← p.Consume .ADDV
    let currentToken := p.currentToken
    let p ← p.Consume .REG
    let regIndex1 := currentToken.value
    let p ← p.Consume .COMMA
    let currentToken := p.currentToken
    let _ ← p.Consume .REG
    let regIndex2 := currentToken.value
    return .binary OPCODE_ADDV regIndex1 regIndex2
  | .DRAW => do
    -- DRAW SHAPE
    let p ← p.Consume .DRAW
    let currentToken := p.currentToken
    let _ ← p.Consume .SHAPE
    let shape := currentToken.value
    return .unary OPCODE_DRAW shape
  | .BLINK => do
    -- BLINK SHAPE
    let p ← p.Consume .BLINK
    let currentToken := p.currentToken
    let _ ← p.Consume .SHAPE
    let shape := currentToken.value
    return .unary OPCODE_BLINK shape
  | .STDOUT => do
    -- STDOUT REG
    let p ← p.Consume .STDOUT
    let currentToken := p.currentToken
    let _ ← p.Consume .REG
    let regIndex := currentToken.value
    return .unary OPCODE_STDOUT regIndex
  | .PRINTR => do
    let _ ← p.Consume .PRINTR
    return .nullary OPCODE_PRINTR
  | _ =>
    .error .parserInvalidToken

/-- Console output events of the interpreter: the STDOUT print, the labeled
register dump lines of PRINTR, and the cosmetic renderings of ADDV and
DRAW/BLINK (star animation and shape drawing, whose ASCII art is not
modelled beyond the values involved). -/
inductive Output where
  | printedInt (v : Int)
  | printedReg (i : Nat) (v : Int)
  | visualAdd (a b sum : Int)
  | drewShape (id : Int) (blink : Bool)
  deriving DecidableEq, Repr

/-- Package interpreter: the interpreter state: program counter, the register
slice and the code-block slice.  A `none` entry of the code block is a nil
interface value (the orchestrator allocates the block with `make`, which fills
it with nil entries). -/
structure Interpreter where
  PC : Int
  Registers : List Int
  Code : List (Option Instruction)
  deriving DecidableEq, Repr

/-- Package interpreter: `New` — program counter 0 over the given registers
and code block. -/
def Interpreter.New (vregisters : List Int) (code : List (Option Instruction)) :
    Interpreter :=
  ⟨0, vregisters, code⟩

/-- Package interpreter: `WriteTo`.  Register 0 is read-only; indices above 9
are invalid; the checks passed, Go stores at `Registers[register]`, which
panics when the index is negative or beyond the slice length. -/
def Interpreter.WriteTo (registers : List Int) (register value : Int) :
    Except GvmError (List Int) :=
  if register = 0 then .error .writeR0ReadOnly
  else if register > 9 then .error (.invalidRegister register)
  else if 0 ≤ register ∧ register.toNat < registers.length then
    .ok (registers.set register.toNat value)
  else .error .goPanic

/-- Package interpreter: `ReadFrom`.  Indices above 9 are invalid; otherwise
Go reads `Registers[register]`, which panics when the index is negative or
beyond the slice length. -/
def Interpreter.ReadFrom (registers : List Int) (register : Int) :
    Except GvmError Int :=
  if register > 9 then .error (.invalidRegister register)
  else if 0 ≤ register ∧ register.toNat < registers.length then
    .ok (registers.getD register.toNat 0)
  else .error .goPanic

/-- Package interpreter: `CheckJump`.  The Go source reads register 0 ignoring
the returned error, which for index 0 is always nil (index 0 passes the range
check); the only abnormal outcome is the panic on an empty register slice,
embedded as the error branch here.  A jump to an address at or before the
current one is an infinite-loop error; a jump past `lastAddr - 1` (int32
subtraction) is a segmentation violation. -/
def Interpreter.CheckJump (interp : Interpreter) (addr : Int) :
    Except GvmError Unit :=
  match Interpreter.ReadFrom interp.Registers 0 with
  | .error _ => .error .goPanic
  | .ok lastAddr =>
    if addr ≤ interp.PC then .error (.jumpInfiniteLoop interp.PC addr)
    else if addr > wrap32 (lastAddr - 1) then .error .jumpSegfault
    else .ok ()

/-- Package interpreter: `JumpTo` — validate, then set the program counter to
the target minus one (the dispatch loop increments it afterwards).  The int32
subtraction `address - 1` cannot wrap here: `CheckJump` passed, so the
address strictly exceeds the int32 program counter and is at least
`minInt32 + 1`. -/
def Interpreter.JumpTo (interp : Interpreter) (address : Int) :
    Except GvmError Interpreter :=
  match interp.CheckJump address with
  | .error e => .error e
  | .ok _ => .ok { interp with PC := address - 1 }

/-- Package interpreter: `LoadImmediate` (the LDI routine). -/
def Interpreter.LoadImmediate (interp : Interpreter) (register value : Int) :
    Except GvmError Interpreter :=
  match Interpreter.WriteTo interp.Registers register value with
  | .error e => .error e
  | .ok registers => .ok { interp with Registers := registers }

/-- Package interpreter: `Add` (the ADD routine).  Reads both operands, adds
them with wrapping int32 semantics and writes the result back — the Go source
discards the value returned by this `WriteTo` call, so a read-only or
invalid-register failure of the write is swallowed and the routine still
returns nil; only a panic inside `WriteTo` would abort. -/
def Interpreter.Add (interp : Interpreter) (ri rj : Int) :
    Except GvmError Interpreter :=
  match Interpreter.ReadFrom interp.Registers ri with
  | .error e => .error e
  | .ok value1 =>
    match Interpreter.ReadFrom interp.Registers rj with
    | .error e => .error e
    | .ok value2 =>
      let result := wrap32 (value1 + value2)
      match Interpreter.WriteTo interp.Registers ri result with
      | .ok registers => .ok { interp with Registers := registers }
      | .error .goPanic => .error .goPanic
      | .error _ => .ok interp

/-- Package interpreter: `PrintToStdOut` (the STDOUT routine). -/
def Interpreter.PrintToStdOut (interp : Interpreter) (register : Int) :
    Except GvmError (List Output) :=
  match Interpreter.ReadFrom interp.Registers register with
  | .error e => .error e
  | .ok value => .ok [.printedInt value]

/-- The loop body of `PrintRegisters`: read and print `remaining` registers
starting at index `i` (the Go loop runs `i` from 0 to 9, so the count of
remaining iterations is structural). -/
def Interpreter.printRegistersFrom (registers : List Int) :
    Nat → Nat → Except GvmError (List Output)
  | _, 0 => .ok []
  | i, remaining + 1 =>
    match Interpreter.ReadFrom registers i with
    | .error e => .error e
    | .ok value =>
      match Interpreter.printRegistersFrom registers (i + 1) remaining with
      | .error e => .error e
      | .ok rest => .ok (.printedReg i value :: rest)

/-- Package interpreter: `PrintRegisters` (the PRINTR routine) — print all
ten registers with their indices. -/
def Interpreter.PrintRegisters (interp : Interpreter) :
    Except GvmError (List Output) :=
  Interpreter.printRegistersFrom interp.Registers 0 10

/-- Package interpreter: `AddV` (the ADDV routine).  Both operand values must
be at most 10; the sum is written back with the same discarded-error `WriteTo`
call as `Add`; then the star animation renders `value1`, `value2` and the sum,
where Go's `strings.Repeat` panics on a negative count (the write has already
happened at that point; the claims below do not inspect the state of a
panicked run). -/
def Interpreter.AddV (interp : Interpreter) (ri rj : Int) :
    Except GvmError (Interpreter × List Output) :=
  match Interpreter.ReadFrom interp.Registers ri with
  | .error e => .error e
  | .ok value1 =>
    match Interpreter.ReadFrom interp.Registers rj with
    | .error e => .error e
    | .ok value2 =>
      if value1 > 10 ∨ value2 > 10 then .error .addvRange
      else
        let k := wrap32 (value1 + value2)
        let step : Except GvmError Interpreter :=
          match Interpreter.WriteTo interp.Registers ri k with
          | .ok registers => .ok { interp with Registers := registers }
          | .error .goPanic => .error .goPanic
          | .error _ => .ok interp
        match step with
        | .error e => .error e
        | .ok interp1 =>
          if value1 < 0 ∨ value2 < 0 then .error .goPanic
          else .ok (interp1, [.visualAdd value1 value2 k])

/-- Package interpreter: `Draw` (the DRAW routine) — shape 1 is the heart,
shape 2 the bird, anything else an invalid shape id; the blink flag is off. -/
def Interpreter.Draw (interp : Interpreter) (shape : Int) :
    Except GvmError (List Output) :=
  if shape = 1 then .ok [.drewShape 1 false]
  else if shape = 2 then .ok [.drewShape 2 false]
  else .error (.invalidShape shape)

/-- Package interpreter: `Blink` (the BLINK routine) — like `Draw` with the
blink flag on. -/
def Interpreter.Blink (interp : Interpreter) (shape : Int) :
    Except GvmError (List Output) :=
  if shape = 1 then .ok [.drewShape 1 true]
  else if shape = 2 then .ok [.drewShape 2 true]
  else .error (.invalidShape shape)

/-- Package interpreter: `DecodeAndDispatch`.  A `none` slot is a nil
interface value, on which the Go method call `instr.GetOpCode()` panics.
The opcode cases appear in source order; an unknown opcode is an invalid
command.  Returns the new interpreter state and the emitted output. -/
def Interpreter.DecodeAndDispatch (interp : Interpreter)
    (oinstr : Option Instruction) :
    Except GvmError (Interpreter × List Output) :=
  match oinstr with
  | none => .error .goPanic
  | some instr =>
    if instr.GetOpCode = OPCODE_LDI then
      match interp.LoadImmediate instr.GetArg1 instr.GetArg2 with
      | .error e => .error e
      | .ok interp1 => .ok (interp1, [])
    else if instr.GetOpCode = OPCODE_JUMP then
      match interp.JumpTo instr.GetArg1 with
      | .error e => .error e
      | .ok interp1 => .ok (interp1, [])
    else if instr.GetOpCode = OPCODE_ADD then
      match interp.Add instr.GetArg1 instr.GetArg2 with
      | .error e => .error e
      | .ok interp1 => .ok (interp1, [])
    else if instr.GetOpCode = OPCODE_ADDV then
      interp.AddV instr.GetArg1 instr.GetArg2
    else if instr.GetOpCode = OPCODE_DRAW then
      match interp.Draw instr.GetArg1 with
      | .error e => .error e
      | .ok out => .ok (interp, out)
    else if instr.GetOpCode = OPCODE_BLINK then
      match interp.Blink instr.GetArg1 with
      | .error e => .error e
      | .ok out => .ok (interp, out)
    else if instr.GetOpCode = OPCODE_STDOUT then
      match interp.PrintToStdOut instr.GetArg1 with
      | .error e => .error e
      | .ok out => .ok (interp, out)
    else if instr.GetOpCode = OPCODE_PRINTR then
      match interp.PrintRegisters with
      | .error e => .error e
      | .ok out => .ok (interp, out)
    else
      .error .invalidOpcode

/-- Outcome of a run of the dispatch loop: normal halt (program counter
reached the bound), abort at the first error — a Go panic included — or
exhaustion of the loop-iteration budget of the embedding (shown below to be
unreachable with a budget of `lastAddr - PC` iterations, which is how the
unbounded Go loop is recovered). -/
inductive RunOutcome where
  | halted (interp : Interpreter) (out : List Output)
  | failed (e : GvmError) (interp : Interpreter) (out : List Output)
  deriving DecidableEq, Repr

/-- The dispatch loop of `Interpret`: while the program counter is below the
bound read from register 0, fetch `Code[PC]` (a Go index panic outside the
slice), decode and dispatch it, and increment the program counter.  `fuel`
bounds the number of iterations of this embedding; `none` reports the bound
was hit. -/
def Interpreter.interpLoop (fuel : Nat) (lastAddr : Int) (interp : Interpreter)
    (out : List Output) : Option RunOutcome :=
  match fuel with
  | 0 => if interp.PC < lastAddr then none else some (.halted interp out)
  | fuel + 1 =>
    if interp.PC < lastAddr then
      if 0 ≤ interp.PC ∧ interp.PC.toNat < interp.Code.length then
        match interp.DecodeAndDispatch (interp.Code.getD interp.PC.toNat none) with
        | .error e => some (.failed e interp out)
        | .ok (interp1, out1) =>
          Interpreter.interpLoop fuel lastAddr { interp1 with PC := interp1.PC + 1 }
            (out ++ out1)
      else some (.failed .goPanic interp out)
    else some (.halted interp out)

/-- Package interpreter: `Interpret`.  Reads the bound once from register 0
(the returned error is ignored in Go and is necessarily nil for index 0; only
the panic on an empty register slice can occur, embedded as the failure
branch) and runs the dispatch loop.  The loop budget `(lastAddr - PC).toNat`
is sufficient by `interpLoop_ne_none` below, so `.getD` never takes its
default and this equals the unbounded Go loop. -/
def Interpreter.Interpret (interp : Interpreter) : RunOutcome :=
  match Interpreter.ReadFrom interp.Registers 0 with
  | .error _ => .failed .goPanic interp []
  | .ok lastAddr =>
    (Interpreter.interpLoop (lastAddr - interp.PC).toNat lastAddr interp []).getD
      (.failed .goPanic interp [])

/-- Package vm: `NUM_REGISTERS`. -/
def NUM_REGISTERS : Nat := 10

/-- Package vm: `INIT`, the initial code-block size. -/
def INIT : Nat := 10

/-- Package vm: `VirtualMemory` — the register slice, the code-block slice
(`none` entries are the nil interface values `make` fills in) and the count
of instructions written so far. -/
structure VirtualMemory where
  Registers : List Int
  Code : List (Option Instruction)
  CodeSize : Nat
  deriving DecidableEq, Repr

/-- Package vm: `NewVirtualMemory` — ten zeroed registers, a code block of
`INIT` nil slots, no instruction written yet. -/
def NewVirtualMemory : VirtualMemory :=
  ⟨List.replicate NUM_REGISTERS 0, List.replicate INIT none, 0⟩

/-- Package vm: `ParseInstructions`, over the list of source lines the file
scanner yields.  Each line is parsed by a fresh parser; the first failure
aborts.  The bytecode write `Code[CodeSize] = instr` is a plain index
assignment into the fixed-size slice: past its length Go panics with an
index-out-of-range error (the `goPanic` branch). -/
def VirtualMachine.ParseInstructions (lines : List (List Nat))
    (vMem : VirtualMemory) : Except GvmError VirtualMemory :=
  match lines with
  | [] => .ok vMem
  | sourceInstruction :: rest =>
    match Parser.New sourceInstruction with
    | .error e => .error e
    | .ok p =>
      match p.Instruction with
      | .error e => .error e
      | .ok byteCodeInstr =>
        if vMem.CodeSize < vMem.Code.length then
          VirtualMachine.ParseInstructions rest
            ⟨vMem.Registers, vMem.Code.set vMem.CodeSize (some byteCodeInstr),
              vMem.CodeSize + 1⟩
        else .error .goPanic

/-- Result of `Execute`: a load/parse failure, or the outcome of the
interpreter run. -/
inductive ExecOutcome where
  | parseFailed (e : GvmError)
  | ran (o : RunOutcome)
  deriving DecidableEq, Repr

/-- Package vm: `Execute`, over the lines of the already-opened program file.
Parses every line into the code block, writes the final code-block length into
register 0, and invokes the interpreter.  In Go the interpreter instance is
created up front with references to the same register and code slices, so at
interpretation time it sees exactly the post-parse contents used here. -/
def VirtualMachine.Execute (lines : List (List Nat)) : ExecOutcome :=
  match VirtualMachine.ParseInstructions lines NewVirtualMemory with
  | .error e => .parseFailed e
  | .ok vMem =>
    let registers := vMem.Registers.set 0 (vMem.CodeSize : Int)
    .ran (Interpreter.New registers vMem.Code).Interpret

/-- The run of digit bytes in `input` starting at position `p` (stopping at
the first byte that is zero or not a digit) — the string `Lexer.Integer`
accumulates. -/
def digitRun (input : List Nat) (p : Nat) : List Nat :=
  (input.drop p).takeWhile (fun b => b ≠ 0 && isDigitB b)

/-- Decimal value of a digit-byte run, as folded up by `strconvParseInt32`. -/
def natOfDigits (s : List Nat) : Nat :=
  s.foldl (fun acc d => acc * 10 + (d - 48)) 0

/-- The interpreter state carried by a run outcome. -/
def RunOutcome.outInterp : RunOutcome → Interpreter
  | .halted interp _ => interp
  | .failed _ interp _ => interp

/-- Register-index arguments of a parser-produced instruction are in 0..9:
the register operand of STDOUT and LDI, and both operands of ADD and ADDV. -/
def RegArgsInRange (i : Instruction) : Prop :=
  (i.GetOpCode = OPCODE_STDOUT ∨ i.GetOpCode = OPCODE_LDI →
    0 ≤ i.GetArg1 ∧ i.GetArg1 ≤ 9) ∧
  (i.GetOpCode = OPCODE_ADD ∨ i.GetOpCode = OPCODE_ADDV →
    (0 ≤ i.GetArg1 ∧ i.GetArg1 ≤ 9) ∧ (0 ≤ i.GetArg2 ∧ i.GetArg2 ≤ 9))

/-- Soundness of a lookahead token: if it is a REG token, its value is a
register index in 0..9. -/
def TokenSound (t : Token) : Prop :=
  t.tokenType = .REG → 0 ≤ t.value ∧ t.value ≤ 9

/-- The four-line sample program of the specification scenario. -/
def scenarioLines : List (List Nat) :=
  [strToBytes (r"LDI r1,1"), strToBytes (r"LDI r2,8"),
   strToBytes (r"ADD r1,r2"), strToBytes (r"STDOUT r1")]

/-- The single-mnemonic source line `PRINTR`. -/
def printrLine : List Nat := strToBytes (r"PRINTR")

/-- A two-line program whose second instruction adds into the read-only
register 0. -/
def addToR0Lines : List (List Nat) :=
  [strToBytes (r"LDI r1,5"), strToBytes (r"ADD r0,r1")]

/-- An interpreter state at address 2 of the five-instruction jump scenario
program (registers as left by its two LDI instructions, bound 5 in register
0), used to instantiate the JUMP-semantics theorem. -/
def jumpStateExample : Interpreter :=
  ⟨2, [5, 1, 8, 0, 0, 0, 0, 0, 0, 0],
    [some (.binary OPCODE_LDI 1 1), some (.binary OPCODE_LDI 2 8),
     some (.unary OPCODE_JUMP 4), some (.binary OPCODE_ADD 1 2),
     some (.unary OPCODE_STDOUT 1), none, none, none, none, none]⟩

/-- The parser state right after `Parser.New` on the line `ADD r1,r2`. -/
def parserExampleADD : Parser :=
  ⟨⟨strToBytes (r"ADD r1,r2"), 3⟩, Token.New .ADD 0⟩
theorem andDecide_eq_false {x : Nat} (h : x = 0 ∨ isDigitB x = false) :
    (decide (x ≠ 0) && isDigitB x) = false := by
  rcases h with h | h <;> simp [h]

theorem andDecide_eq_true {x : Nat} (h1 : x ≠ 0) (h2 : isDigitB x = true) :
    (decide (x ≠ 0) && isDigitB x) = true := by
  simp [h1, h2]

theorem Lexer.position_lt_of_currentChar_ne_zero {lex : Lexer}
    (h : lex.currentChar ≠ 0) : lex.position < lex.input.length := by
  by_contra hge
  exact h (List.getD_eq_default _ _ (Nat.le_of_not_lt hge))

theorem Lexer.ignoreWhiteSpaceGo_not_space (gas : Nat) (lex : Lexer)
    (h : isSpaceB lex.currentChar = false) :
    Lexer.ignoreWhiteSpaceGo gas lex = lex := by
  cases gas <;> simp [Lexer.ignoreWhiteSpaceGo, h]

theorem Lexer.IgnoreWhiteSpace_not_space (lex : Lexer)
    (h : isSpaceB lex.currentChar = false) :
    lex.IgnoreWhiteSpace = lex :=
  Lexer.ignoreWhiteSpaceGo_not_space _ _ h

theorem List.drop_eq_getD_cons {input : List Nat} {p : Nat}
    (hlt : p < input.length) :
    input.drop p = input.getD p 0 :: input.drop (p + 1) := by
  rw [List.drop_eq_getElem_cons hlt]
  congr 1
  simp [List.getD_eq_getElem?_getD, List.getElem?_eq_getElem hlt]

theorem digitRun_nil {input : List Nat} {p : Nat}
    (h : ¬(input.getD p 0 ≠ 0 ∧ isDigitB (input.getD p 0))) :
    digitRun input p = [] := by
  unfold digitRun
  rcases Nat.lt_or_ge p input.length with hlt | hge
  · rw [List.drop_eq_getD_cons hlt, List.takeWhile_cons]
    have hx : input.getD p 0 = 0 ∨ isDigitB (input.getD p 0) = false := by
      by_cases h1 : input.getD p 0 = 0
      · exact Or.inl h1
      · rcases Bool.eq_false_or_eq_true (isDigitB (input.getD p 0)) with h2 | h2
        · exact absurd ⟨h1, h2⟩ h
        · exact Or.inr h2
    simp only [andDecide_eq_false hx]
    simp
  · simp [List.drop_eq_nil_of_le hge]

theorem digitRun_cons {input : List Nat} {p : Nat}
    (h1 : input.getD p 0 ≠ 0) (h2 : isDigitB (input.getD p 0)) :
    digitRun input p = input.getD p 0 :: digitRun input (p + 1) := by
  have hlt : p < input.length := by
    by_contra hge
    exact h1 (List.getD_eq_default _ _ (Nat.le_of_not_lt hge))
  unfold digitRun
  rw [List.drop_eq_getD_cons hlt, List.takeWhile_cons]
  simp only [andDecide_eq_true h1 h2]
  simp

theorem Lexer.collectDigitsGo_spec :
    ∀ (gas : Nat) (acc : List Nat) (lex : Lexer),
      lex.input.length - lex.position ≤ gas →
      Lexer.collectDigitsGo gas acc lex =
        (acc ++ digitRun lex.input lex.position,
         ⟨lex.input, lex.position + (digitRun lex.input lex.position).length⟩) := by
  intro gas
  induction gas with
  | zero =>
    intro acc lex h
    have hge : lex.input.length ≤ lex.position := by omega
    have hz : lex.currentChar = 0 := List.getD_eq_default _ _ hge
    have hdr : digitRun lex.input lex.position = [] := by
      apply digitRun_nil
      intro hc
      exact hc.1 hz
    simp [Lexer.collectDigitsGo, hdr]
  | succ gas ih =>
    intro acc lex h
    by_cases hc : lex.currentChar ≠ 0 ∧ isDigitB lex.currentChar
    · have hlt : lex.position < lex.input.length :=
        Lexer.position_lt_of_currentChar_ne_zero hc.1
      have hdr : digitRun lex.input lex.position =
          lex.currentChar :: digitRun lex.input (lex.position + 1) :=
        digitRun_cons hc.1 hc.2
      have hnext : lex.GetNextChar.input.length - lex.GetNextChar.position ≤ gas := by
        simp only [Lexer.GetNextChar]
        omega
      rw [Lexer.collectDigitsGo, if_pos hc, ih _ _ hnext]
      simp only [Lexer.GetNextChar, hdr]
      simp [Lexer.currentChar]
      omega
    · have hdr : digitRun lex.input lex.position = [] := by
        apply digitRun_nil
        simpa [Lexer.currentChar] using hc
      rw [Lexer.collectDigitsGo, if_neg hc]
      simp [hdr]

theorem Lexer.collectDigits_spec (acc : List Nat) (lex : Lexer) :
    Lexer.collectDigits acc lex =
      (acc ++ digitRun lex.input lex.position,
       ⟨lex.input, lex.position + (digitRun lex.input lex.position).length⟩) :=
  Lexer.collectDigitsGo_spec _ _ _ le_rfl

theorem natOfDigits_foldl (s : List Nat) :
    s.foldl (fun acc d => acc * 10 + (d - 48)) 0 = natOfDigits s := rfl

theorem strconvParseInt32_ok_bounds {s : List Nat} {v : Int}
    (h : strconvParseInt32 s = .ok v) : 0 ≤ v ∧ v ≤ maxInt32 := by
  unfold strconvParseInt32 at h
  rw [natOfDigits_foldl] at h
  split at h
  · exact absurd h (by simp)
  · simp only [] at h
    split at h
    · exact absurd h (by simp)
    · rename_i hle
      injection h with h
      subst h
      exact ⟨Int.ofNat_nonneg _, le_of_not_lt hle⟩

theorem Lexer.Integer_spec (lex : Lexer)
    (hok : lex.Register = true ∨ lex.Delimiter = true) :
    lex.Integer =
      (if (digitRun lex.input lex.position).isEmpty then .error .intConvert
       else if (natOfDigits (digitRun lex.input lex.position) : Int) > maxInt32 then
         .error .intConvert
       else .ok ((natOfDigits (digitRun lex.input lex.position) : Int),
         ⟨lex.input, lex.position + (digitRun lex.input lex.position).length⟩)) := by
  have hguard : ¬(¬lex.Register ∧ ¬lex.Delimiter) := by
    rcases hok with h | h <;> simp [h]
  unfold Lexer.Integer
  rw [if_neg hguard, Lexer.collectDigits_spec]
  simp only [List.nil_append]
  unfold strconvParseInt32
  rw [natOfDigits_foldl]
  by_cases he : (digitRun lex.input lex.position).isEmpty
  · simp [he]
  · simp only [he, Bool.false_eq_true, if_false]
    by_cases hbig : (natOfDigits (digitRun lex.input lex.position) : Int) > maxInt32
    · rw [if_pos hbig, if_pos hbig]
    · rw [if_neg hbig, if_neg hbig]
      simp only []
      rw [if_neg hbig]
      have hmin : ¬((natOfDigits (digitRun lex.input lex.position) : Int) < minInt32) := by
        have h0 : (0 : Int) ≤ (natOfDigits (digitRun lex.input lex.position) : Int) :=
          Int.ofNat_nonneg _
        unfold minInt32
        omega
      rw [if_neg hmin]

theorem Lexer.Integer_ok_bounds {lex : Lexer} {v : Int} {lex1 : Lexer}
    (h : lex.Integer = .ok (v, lex1)) : 0 ≤ v ∧ v ≤ maxInt32 := by
  unfold Lexer.Integer at h
  split at h
  · exact absurd h (by simp)
  · simp only [] at h
    split at h
    · exact absurd h (by simp)
    · rename_i integer hparse
      split at h
      · exact absurd h (by simp)
      · split at h
        · exact absurd h (by simp)
        · rename_i hnbig hnsmall
          have hb := strconvParseInt32_ok_bounds hparse
          injection h with h
          rw [Prod.mk.injEq] at h
          obtain ⟨h1, h2⟩ := h
          subst h1
          exact hb

theorem Lexer.RegisterIndex_ok_bounds {lex : Lexer} {v : Int} {lex1 : Lexer}
    (h : lex.RegisterIndex = .ok (v, lex1)) : 0 ≤ v ∧ v ≤ 9 := by
  unfold Lexer.RegisterIndex at h
  split at h
  · exact absurd h (by simp)
  · simp only [] at h
    split at h
    · exact absurd h (by simp)
    · split at h
      · exact absurd h (by simp)
      · rename_i registerIndex lex2 hint
        split at h
        · exact absurd h (by simp)
        · rename_i hle
          rw [Except.ok.injEq, Prod.mk.injEq] at h
          obtain ⟨h1, h2⟩ := h
          subst h1
          exact ⟨(Lexer.Integer_ok_bounds hint).1, le_of_not_lt hle⟩

theorem Lexer.getNextTokenDispatch_REG_bounds {lexw : Lexer} {t : Token}
    {lex1 : Lexer} (h : lexw.getNextTokenDispatch = .ok (t, lex1))
    (ht : t.tokenType = .REG) : 0 ≤ t.value ∧ t.value ≤ 9 := by
  unfold Lexer.getNextTokenDispatch at h
  by_cases c0 : lexw.currentChar = 0
  · rw [if_pos c0] at h
    rw [Except.ok.injEq, Prod.mk.injEq] at h
    obtain ⟨h1, h2⟩ := h
    subst h1
    exact absurd ht (by simp [Token.New])
  · rw [if_neg c0] at h
    by_cases c1 : lexw.currentChar = 114 ∨ lexw.currentChar = 82
    · rw [if_pos c1] at h
      split at h
      · exact Except.noConfusion h
      · rw [Except.ok.injEq, Prod.mk.injEq] at h
        obtain ⟨h1, h2⟩ := h
        subst h1
        exact Lexer.RegisterIndex_ok_bounds (by assumption)
    · rw [if_neg c1] at h
      by_cases c2 : isDigitB lexw.currentChar
      · rw [if_pos c2] at h
        split at h
        · exact Except.noConfusion h
        · rw [Except.ok.injEq, Prod.mk.injEq] at h
          obtain ⟨h1, h2⟩ := h
          subst h1
          exact absurd ht (by simp [Token.New])
      · rw [if_neg c2] at h
        by_cases c3 : lexw.currentChar = 44
        · rw [if_pos c3] at h
          rw [Except.ok.injEq, Prod.mk.injEq] at h
          obtain ⟨h1, h2⟩ := h
          subst h1
          exact absurd ht (by simp [Token.New])
        · rw [if_neg c3] at h
          by_cases c4 : lexw.currentChar = 36
          · rw [if_pos c4] at h
            split at h
            · exact Except.noConfusion h
            · repeat' split at h
              all_goals
                first
                | exact Except.noConfusion h
                | (rw [Except.ok.injEq, Prod.mk.injEq] at h
                   obtain ⟨h1, h2⟩ := h
                   subst h1
                   exact absurd ht (by simp [Token.New]))
          · rw [if_neg c4] at h
            by_cases c5 : isLowerB lexw.currentChar
            · rw [if_pos c5] at h
              exact Except.noConfusion h
            · rw [if_neg c5] at h
              by_cases c6 : isPunctB lexw.currentChar = true ∨ isSymbolB lexw.currentChar = true
              · rw [if_pos c6] at h
                exact Except.noConfusion h
              · rw [if_neg c6] at h
                by_cases c7 : isUpperB lexw.currentChar
                · rw [if_pos c7] at h
                  split at h
                  · exact Except.noConfusion h
                  · repeat' split at h
                    all_goals
                      first
                      | exact Except.noConfusion h
                      | (rw [Except.ok.injEq, Prod.mk.injEq] at h
                         obtain ⟨h1, h2⟩ := h
                         subst h1
                         exact absurd ht (by simp [Token.New]))
                · rw [if_neg c7] at h
                  exact Except.noConfusion h

theorem Lexer.GetNextToken_REG_bounds {lex : Lexer} {t : Token} {lex1 : Lexer}
    (h : lex.GetNextToken = .ok (t, lex1)) (ht : t.tokenType = .REG) :
    0 ≤ t.value ∧ t.value ≤ 9 :=
  Lexer.getNextTokenDispatch_REG_bounds h ht

theorem Parser.New_sound {input : List Nat} {p : Parser}
    (h : Parser.New input = .ok p) : TokenSound p.currentToken := by
  unfold Parser.New at h
  simp only [] at h
  split at h
  · exact Except.noConfusion h
  · rename_i tok lexN heq
    rw [Except.ok.injEq] at h
    subst h
    intro ht
    exact Lexer.GetNextToken_REG_bounds heq ht

theorem Parser.Consume_ok_type {p : Parser} {et : TokenType} {p1 : Parser}
    (h : p.Consume et = .ok p1) : p.currentToken.tokenType = et := by
  unfold Parser.Consume at h
  split at h
  · exact Except.noConfusion h
  · rename_i hne
    exact not_ne_iff.mp hne

theorem Parser.Consume_sound {p : Parser} {et : TokenType} {p1 : Parser}
    (h : p.Consume et = .ok p1) : TokenSound p1.currentToken := by
  unfold Parser.Consume at h
  split at h
  · exact Except.noConfusion h
  · split at h
    · exact Except.noConfusion h
    · rename_i tok lexN heq
      rw [Except.ok.injEq] at h
      subst h
      intro ht
      exact Lexer.GetNextToken_REG_bounds heq ht

theorem regArgsInRange_jump (v : Int) : RegArgsInRange (.unary OPCODE_JUMP v) := by
  constructor <;> intro hop <;> exact absurd hop (by
    simp [Instruction.GetOpCode, OPCODE_STDOUT, OPCODE_LDI, OPCODE_JUMP,
      OPCODE_ADD, OPCODE_ADDV])

theorem regArgsInRange_draw (v : Int) : RegArgsInRange (.unary OPCODE_DRAW v) := by
  constructor <;> intro hop <;> exact absurd hop (by
    simp [Instruction.GetOpCode, OPCODE_STDOUT, OPCODE_LDI, OPCODE_DRAW,
      OPCODE_ADD, OPCODE_ADDV])

theorem regArgsInRange_blink (v : Int) : RegArgsInRange (.unary OPCODE_BLINK v) := by
  constructor <;> intro hop <;> exact absurd hop (by
    simp [Instruction.GetOpCode, OPCODE_STDOUT, OPCODE_LDI, OPCODE_BLINK,
      OPCODE_ADD, OPCODE_ADDV])

theorem regArgsInRange_printr : RegArgsInRange (.nullary OPCODE_PRINTR) := by
  constructor <;> intro hop <;> exact absurd hop (by
    simp [Instruction.GetOpCode, OPCODE_STDOUT, OPCODE_LDI, OPCODE_PRINTR,
      OPCODE_ADD, OPCODE_ADDV])

theorem regArgsInRange_stdout {v : Int} (hv : 0 ≤ v ∧ v ≤ 9) :
    RegArgsInRange (.unary OPCODE_STDOUT v) := by
  refine ⟨fun _ => hv, fun hop => absurd hop (by
    simp [Instruction.GetOpCode, OPCODE_STDOUT, OPCODE_ADD, OPCODE_ADDV])⟩

theorem regArgsInRange_ldi {v : Int} (w : Int) (hv : 0 ≤ v ∧ v ≤ 9) :
    RegArgsInRange (.binary OPCODE_LDI v w) := by
  refine ⟨fun _ => hv, fun hop => absurd hop (by
    simp [Instruction.GetOpCode, OPCODE_LDI, OPCODE_ADD, OPCODE_ADDV])⟩

theorem regArgsInRange_add {v w : Int} (hv : 0 ≤ v ∧ v ≤ 9) (hw : 0 ≤ w ∧ w ≤ 9) :
    RegArgsInRange (.binary OPCODE_ADD v w) := by
  refine ⟨fun hop => absurd hop (by
    simp [Instruction.GetOpCode, OPCODE_STDOUT, OPCODE_LDI, OPCODE_ADD]),
    fun _ => ⟨hv, hw⟩⟩

theorem regArgsInRange_addv {v w : Int} (hv : 0 ≤ v ∧ v ≤ 9) (hw : 0 ≤ w ∧ w ≤ 9) :
    RegArgsInRange (.binary OPCODE_ADDV v w) := by
  refine ⟨fun hop => absurd hop (by
    simp [Instruction.GetOpCode, OPCODE_STDOUT, OPCODE_LDI, OPCODE_ADDV]),
    fun _ => ⟨hv, hw⟩⟩

theorem parserInstruction_regArgs {input : List Nat} {p : Parser}
    {i : Instruction} (hnew : Parser.New input = .ok p)
    (h : p.Instruction = .ok i) : RegArgsInRange i := by
  unfold Parser.Instruction at h
  simp only [bind, Except.bind, pure, Except.pure] at h
  split at h
  -- JUMP INT
  · split at h
    · exact Except.noConfusion h
    · split at h
      · exact Except.noConfusion h
      · rw [Except.ok.injEq] at h
        subst h
        exact regArgsInRange_jump _
  -- LDI REG COMMA INT
  · split at h
    · exact Except.noConfusion h
    · rename_i p1 heq1
      split at h
      · exact Except.noConfusion h
      · rename_i p2 heq2
        split at h
        · exact Except.noConfusion h
        · split at h
          · exact Except.noConfusion h
          · rw [Except.ok.injEq] at h
            subst h
            exact regArgsInRange_ldi _
              (Parser.Consume_sound heq1 (Parser.Consume_ok_type heq2))
  -- ADD REG COMMA REG
  · split at h
    · exact Except.noConfusion h
    · rename_i p1 heq1
      split at h
      · exact Except.noConfusion h
      · rename_i p2 heq2
        split at h
        · exact Except.noConfusion h
        · rename_i p3 heq3
          split at h
          · exact Except.noConfusion h
          · rename_i p4 heq4
            rw [Except.ok.injEq] at h
            subst h
            exact regArgsInRange_add
              (Parser.Consume_sound heq1 (Parser.Consume_ok_type heq2))
              (Parser.Consume_sound heq3 (Parser.Consume_ok_type heq4))
  -- ADDV REG COMMA REG
  · split at h
    · exact Except.noConfusion h
    · rename_i p1 heq1
      split at h
      · exact Except.noConfusion h
      · rename_i p2 heq2
        split at h
        · exact Except.noConfusion h
        · rename_i p3 heq3
          split at h
          · exact Except.noConfusion h
          · rename_i p4 heq4
            rw [Except.ok.injEq] at h
            subst h
            exact regArgsInRange_addv
              (Parser.Consume_sound heq1 (Parser.Consume_ok_type heq2))
              (Parser.Consume_sound heq3 (Parser.Consume_ok_type heq4))
  -- DRAW SHAPE
  · split at h
    · exact Except.noConfusion h
    · split at h
      · exact Except.noConfusion h
      · rw [Except.ok.injEq] at h
        subst h
        exact regArgsInRange_draw _
  -- BLINK SHAPE
  · split at h
    · exact Except.noConfusion h
    · split at h
      · exact Except.noConfusion h
      · rw [Except.ok.injEq] at h
        subst h
        exact regArgsInRange_blink _
  -- STDOUT REG
  · split at h
    · exact Except.noConfusion h
    · rename_i p1 heq1
      split at h
      · exact Except.noConfusion h
      · rename_i p2 heq2
        rw [Except.ok.injEq] at h
        subst h
        exact regArgsInRange_stdout
          (Parser.Consume_sound heq1 (Parser.Consume_ok_type heq2))
  -- PRINTR
  · split at h
    · exact Except.noConfusion h
    · rw [Except.ok.injEq] at h
      subst h
      exact regArgsInRange_printr
  -- default
  · exact Except.noConfusion h

theorem getD_zero_set {l : List Int} {i : Nat} (v : Int) (h : i ≠ 0) :
    (l.set i v).getD 0 0 = l.getD 0 0 := by
  rw [List.getD_eq_getElem?_getD, List.getD_eq_getElem?_getD, List.getElem?_set]
  simp [h]

theorem Interpreter.WriteTo_reg0 (registers : List Int) (v : Int) :
    Interpreter.WriteTo registers 0 v = .error .writeR0ReadOnly := by
  unfold Interpreter.WriteTo
  simp

theorem Interpreter.WriteTo_ok_getD_zero {registers : List Int} {r v : Int}
    {registers1 : List Int} (h : Interpreter.WriteTo registers r v = .ok registers1) :
    registers1.getD 0 0 = registers.getD 0 0 := by
  unfold Interpreter.WriteTo at h
  split at h
  · exact Except.noConfusion h
  · split at h
    · exact Except.noConfusion h
    · split at h
      · rename_i hr0 hr9 hrange
        rw [Except.ok.injEq] at h
        subst h
        have : r.toNat ≠ 0 := by omega
        exact getD_zero_set v this
      · exact Except.noConfusion h

theorem Interpreter.LoadImmediate_props {interp : Interpreter} {r v : Int}
    {interp1 : Interpreter} (h : interp.LoadImmediate r v = .ok interp1) :
    interp1.PC = interp.PC ∧
      interp1.Registers.getD 0 0 = interp.Registers.getD 0 0 := by
  unfold Interpreter.LoadImmediate at h
  split at h
  · exact Except.noConfusion h
  · rename_i registers heq
    rw [Except.ok.injEq] at h
    subst h
    exact ⟨rfl, Interpreter.WriteTo_ok_getD_zero heq⟩

theorem Interpreter.CheckJump_ok_lt {interp : Interpreter} {addr : Int}
    (h : interp.CheckJump addr = .ok ()) : interp.PC < addr := by
  unfold Interpreter.CheckJump at h
  split at h
  · exact Except.noConfusion h
  · split at h
    · exact Except.noConfusion h
    · rename_i hle
      exact lt_of_not_le hle

theorem Interpreter.JumpTo_props {interp : Interpreter} {addr : Int}
    {interp1 : Interpreter} (h : interp.JumpTo addr = .ok interp1) :
    interp.PC < interp1.PC + 1 ∧ interp1.Registers = interp.Registers := by
  unfold Interpreter.JumpTo at h
  split at h
  · exact Except.noConfusion h
  · rename_i u heq
    rw [Except.ok.injEq] at h
    subst h
    have := Interpreter.CheckJump_ok_lt heq
    constructor
    · simp
      omega
    · rfl

theorem Interpreter.Add_props {interp : Interpreter} {ri rj : Int}
    {interp1 : Interpreter} (h : interp.Add ri rj = .ok interp1) :
    interp1.PC = interp.PC ∧
      interp1.Registers.getD 0 0 = interp.Registers.getD 0 0 := by
  unfold Interpreter.Add at h
  split at h
  · exact Except.noConfusion h
  · split at h
    · exact Except.noConfusion h
    · simp only [] at h
      split at h
      · rename_i registers heq
        rw [Except.ok.injEq] at h
        subst h
        exact ⟨rfl, Interpreter.WriteTo_ok_getD_zero heq⟩
      · exact Except.noConfusion h
      · rw [Except.ok.injEq] at h
        subst h
        exact ⟨rfl, rfl⟩

theorem Interpreter.AddV_props {interp : Interpreter} {ri rj : Int}
    {interp1 : Interpreter} {out : List Output}
    (h : interp.AddV ri rj = .ok (interp1, out)) :
    interp1.PC = interp.PC ∧
      interp1.Registers.getD 0 0 = interp.Registers.getD 0 0 := by
  unfold Interpreter.AddV at h
  split at h
  · exact Except.noConfusion h
  · split at h
    · exact Except.noConfusion h
    · split at h
      · exact Except.noConfusion h
      · simp only [] at h
        split at h
        · exact Except.noConfusion h
        · rename_i interp2 hstep
          split at h
          · exact Except.noConfusion h
          · rw [Except.ok.injEq, Prod.mk.injEq] at h
            obtain ⟨h1, h2⟩ := h
            subst h1
            split at hstep
            · rename_i registers heq
              rw [Except.ok.injEq] at hstep
              subst hstep
              exact ⟨rfl, Interpreter.WriteTo_ok_getD_zero heq⟩
            · exact Except.noConfusion hstep
            · rw [Except.ok.injEq] at hstep
              subst hstep
              exact ⟨rfl, rfl⟩

theorem Interpreter.DecodeAndDispatch_props {interp : Interpreter}
    {oinstr : Option Instruction} {interp1 : Interpreter} {out : List Output}
    (h : interp.DecodeAndDispatch oinstr = .ok (interp1, out)) :
    interp.PC ≤ interp1.PC ∧
      interp1.Registers.getD 0 0 = interp.Registers.getD 0 0 := by
  unfold Interpreter.DecodeAndDispatch at h
  match oinstr with
  | none => exact Except.noConfusion h
  | some instr =>
    simp only [] at h
    by_cases cL : instr.GetOpCode = OPCODE_LDI
    · rw [if_pos cL] at h
      split at h
      · exact Except.noConfusion h
      · rename_i i1 heq
        rw [Except.ok.injEq, Prod.mk.injEq] at h
        obtain ⟨h1, h2⟩ := h
        subst h1
        obtain ⟨hpc, hreg⟩ := Interpreter.LoadImmediate_props heq
        exact ⟨le_of_eq hpc.symm, hreg⟩
    · rw [if_neg cL] at h
      by_cases cJ : instr.GetOpCode = OPCODE_JUMP
      · rw [if_pos cJ] at h
        split at h
        · exact Except.noConfusion h
        · rename_i i1 heq
          rw [Except.ok.injEq, Prod.mk.injEq] at h
          obtain ⟨h1, h2⟩ := h
          subst h1
          obtain ⟨hpc, hreg⟩ := Interpreter.JumpTo_props heq
          exact ⟨by omega, by rw [hreg]⟩
      · rw [if_neg cJ] at h
        by_cases cA : instr.GetOpCode = OPCODE_ADD
        · rw [if_pos cA] at h
          split at h
          · exact Except.noConfusion h
          · rename_i i1 heq
            rw [Except.ok.injEq, Prod.mk.injEq] at h
            obtain ⟨h1, h2⟩ := h
            subst h1
            obtain ⟨hpc, hreg⟩ := Interpreter.Add_props heq
            exact ⟨le_of_eq hpc.symm, hreg⟩
        · rw [if_neg cA] at h
          by_cases cV : instr.GetOpCode = OPCODE_ADDV
          · rw [if_pos cV] at h
            obtain ⟨hpc, hreg⟩ := Interpreter.AddV_props h
            exact ⟨le_of_eq hpc.symm, hreg⟩
          · rw [if_neg cV] at h
            by_cases cD : instr.GetOpCode = OPCODE_DRAW
            · rw [if_pos cD] at h
              split at h
              · exact Except.noConfusion h
              · rw [Except.ok.injEq, Prod.mk.injEq] at h
                obtain ⟨h1, h2⟩ := h
                subst h1
                exact ⟨le_rfl, rfl⟩
            · rw [if_neg cD] at h
              by_cases cB : instr.GetOpCode = OPCODE_BLINK
              · rw [if_pos cB] at h
                split at h
                · exact Except.noConfusion h
                · rw [Except.ok.injEq, Prod.mk.injEq] at h
                  obtain ⟨h1, h2⟩ := h
                  subst h1
                  exact ⟨le_rfl, rfl⟩
              · rw [if_neg cB] at h
                by_cases cS : instr.GetOpCode = OPCODE_STDOUT
                · rw [if_pos cS] at h
                  split at h
                  · exact Except.noConfusion h
                  · rw [Except.ok.injEq, Prod.mk.injEq] at h
                    obtain ⟨h1, h2⟩ := h
                    subst h1
                    exact ⟨le_rfl, rfl⟩
                · rw [if_neg cS] at h
                  by_cases cP : instr.GetOpCode = OPCODE_PRINTR
                  · rw [if_pos cP] at h
                    split at h
                    · exact Except.noConfusion h
                    · rw [Except.ok.injEq, Prod.mk.injEq] at h
                      obtain ⟨h1, h2⟩ := h
                      subst h1
                      exact ⟨le_rfl, rfl⟩
                  · rw [if_neg cP] at h
                    exact Except.noConfusion h

theorem Interpreter.interpLoop_ne_none :
    ∀ (fuel : Nat) (lastAddr : Int) (interp : Interpreter) (out : List Output),
      (lastAddr - interp.PC).toNat ≤ fuel →
      Interpreter.interpLoop fuel lastAddr interp out ≠ none := by
  intro fuel
  induction fuel with
  | zero =>
    intro lastAddr interp out hfuel
    have : ¬(interp.PC < lastAddr) := by omega
    unfold Interpreter.interpLoop
    rw [if_neg this]
    exact Option.noConfusion
  | succ fuel ih =>
    intro lastAddr interp out hfuel
    unfold Interpreter.interpLoop
    by_cases hlt : interp.PC < lastAddr
    · rw [if_pos hlt]
      by_cases hb : 0 ≤ interp.PC ∧ interp.PC.toNat < interp.Code.length
      · rw [if_pos hb]
        split
        · exact Option.noConfusion
        · rename_i i1 out1 heq
          have hmono := (Interpreter.DecodeAndDispatch_props heq).1
          apply ih
          show (lastAddr - (i1.PC + 1)).toNat ≤ fuel
          omega
      · rw [if_neg hb]
        exact Option.noConfusion
    · rw [if_neg hlt]
      exact Option.noConfusion

theorem Interpreter.interpLoop_reg0 :
    ∀ (fuel : Nat) (lastAddr : Int) (interp : Interpreter) (out : List Output)
      (r : RunOutcome),
      Interpreter.interpLoop fuel lastAddr interp out = some r →
      r.outInterp.Registers.getD 0 0 = interp.Registers.getD 0 0 := by
  intro fuel
  induction fuel with
  | zero =>
    intro lastAddr interp out r h
    unfold Interpreter.interpLoop at h
    split at h
    · exact Option.noConfusion h
    · rw [Option.some.injEq] at h
      subst h
      rfl
  | succ fuel ih =>
    intro lastAddr interp out r h
    unfold Interpreter.interpLoop at h
    split at h
    · split at h
      · split at h
        · rw [Option.some.injEq] at h
          subst h
          rfl
        · rename_i i1 out1 heq
          have hstep := (Interpreter.DecodeAndDispatch_props heq).2
          have hrec := ih _ _ _ _ h
          exact hrec.trans hstep
      · rw [Option.some.injEq] at h
        subst h
        rfl
    · rw [Option.some.injEq] at h
      subst h
      rfl

theorem Interpreter.Interpret_reg0 (interp : Interpreter) :
    interp.Interpret.outInterp.Registers.getD 0 0 =
      interp.Registers.getD 0 0 := by
  unfold Interpreter.Interpret
  split
  · rfl
  · rename_i lastAddr heq
    cases hcase : Interpreter.interpLoop (lastAddr - interp.PC).toNat lastAddr interp [] with
    | none => simp [hcase, Option.getD, RunOutcome.outInterp]
    | some r =>
      exact Interpreter.interpLoop_reg0 _ _ _ _ _ hcase

theorem VirtualMachine.ParseInstructions_registers :
    ∀ (lines : List (List Nat)) (vMem vMem1 : VirtualMemory),
      VirtualMachine.ParseInstructions lines vMem = .ok vMem1 →
      vMem1.Registers = vMem.Registers := by
  intro lines
  induction lines with
  | nil =>
    intro vMem vMem1 h
    unfold VirtualMachine.ParseInstructions at h
    rw [Except.ok.injEq] at h
    subst h
    rfl
  | cons line rest ih =>
    intro vMem vMem1 h
    unfold VirtualMachine.ParseInstructions at h
    split at h
    · exact Except.noConfusion h
    · split at h
      · exact Except.noConfusion h
      · split at h
        · rename_i instr heqi hlt
          exact ih ⟨vMem.Registers, vMem.Code.set vMem.CodeSize (some instr), vMem.CodeSize + 1⟩ vMem1 h
        · exact Except.noConfusion h

theorem wrap32_eq_self {n : Int} (h1 : minInt32 ≤ n) (h2 : n ≤ maxInt32) :
    wrap32 n = n := by
  unfold wrap32
  unfold minInt32 at h1
  unfold maxInt32 at h2
  omega

theorem Interpreter.ReadFrom_zero {regs : List Int} (h : regs.length = 10) :
    Interpreter.ReadFrom regs 0 = .ok (regs.getD 0 0) := by
  unfold Interpreter.ReadFrom
  rw [if_neg (by omega), if_pos (by constructor <;> omega)]
  simp

theorem Interpreter.CheckJump_spec (interp : Interpreter) (T : Int)
    (hlen : interp.Registers.length = 10)
    (hpc0 : 0 ≤ interp.PC)
    (hbound : interp.PC < interp.Registers.getD 0 0)
    (hmax : interp.Registers.getD 0 0 ≤ maxInt32) :
    (T ≤ interp.PC →
      interp.CheckJump T = .error (.jumpInfiniteLoop interp.PC T)) ∧
    (interp.PC < T → interp.Registers.getD 0 0 ≤ T →
      interp.CheckJump T = .error .jumpSegfault) ∧
    (interp.PC < T → T < interp.Registers.getD 0 0 →
      interp.CheckJump T = .ok ()) := by
  have hw : wrap32 (interp.Registers.getD 0 0 - 1) =
      interp.Registers.getD 0 0 - 1 := by
    apply wrap32_eq_self
    · unfold minInt32
      omega
    · unfold maxInt32 at hmax ⊢
      omega
  unfold Interpreter.CheckJump
  rw [Interpreter.ReadFrom_zero hlen]
  dsimp only []
  refine ⟨fun hT => ?_, fun hT hB => ?_, fun hT hB => ?_⟩
  · rw [if_pos hT]
  · rw [if_neg (by omega), hw, if_pos (by omega)]
  · rw [if_neg (by omega), hw, if_neg (by omega)]

theorem Interpreter.DecodeAndDispatch_jump (interp : Interpreter) (T : Int) :
    interp.DecodeAndDispatch (some (.unary OPCODE_JUMP T)) =
      match interp.JumpTo T with
      | .error e => .error e
      | .ok interp1 => .ok (interp1, []) := by
  unfold Interpreter.DecodeAndDispatch
  dsimp only []
  rw [if_neg (by simp [Instruction.GetOpCode, OPCODE_LDI, OPCODE_JUMP]),
    if_pos (by simp [Instruction.GetOpCode, OPCODE_JUMP])]
  simp [Instruction.GetArg1]

theorem Interpreter.JumpTo_spec (interp : Interpreter) (T : Int)
    (hlen : interp.Registers.length = 10)
    (hpc0 : 0 ≤ interp.PC)
    (hbound : interp.PC < interp.Registers.getD 0 0)
    (hmax : interp.Registers.getD 0 0 ≤ maxInt32) :
    (T ≤ interp.PC →
      interp.JumpTo T = .error (.jumpInfiniteLoop interp.PC T)) ∧
    (interp.PC < T → interp.Registers.getD 0 0 ≤ T →
      interp.JumpTo T = .error .jumpSegfault) ∧
    (interp.PC < T → T < interp.Registers.getD 0 0 →
      interp.JumpTo T = .ok { interp with PC := T - 1 }) := by
  obtain ⟨h1, h2, h3⟩ := Interpreter.CheckJump_spec interp T hlen hpc0 hbound hmax
  unfold Interpreter.JumpTo
  exact ⟨fun hT => by rw [h1 hT], fun hT hB => by rw [h2 hT hB],
    fun hT hB => by rw [h3 hT hB]⟩

/-- Claim C1: for a JUMP instruction with target T executed at current
address A (program counter of a running interpreter, with the bound in
register 0), dispatch fails with the infinite-loop error iff T ≤ A, fails
with the segmentation-violation error iff T ≥ bound, and otherwise succeeds
with the dispatch loop continuing exactly at address T (the next instruction
executed is the one at address T). -/
theorem claim_C1_jump_semantics (interp : Interpreter) (T : Int)
    (hlen : interp.Registers.length = 10)
    (hpc0 : 0 ≤ interp.PC)
    (hbound : interp.PC < interp.Registers.getD 0 0)
    (hmax : interp.Registers.getD 0 0 ≤ maxInt32) :
    (interp.DecodeAndDispatch (some (.unary OPCODE_JUMP T)) =
        .error (.jumpInfiniteLoop interp.PC T) ↔ T ≤ interp.PC) ∧
    (interp.DecodeAndDispatch (some (.unary OPCODE_JUMP T)) =
        .error .jumpSegfault ↔ interp.Registers.getD 0 0 ≤ T) ∧
    (interp.PC < T → T < interp.Registers.getD 0 0 →
      interp.Code.getD interp.PC.toNat none = some (.unary OPCODE_JUMP T) →
      interp.PC.toNat < interp.Code.length →
      ∀ (fuel : Nat) (out : List Output),
        Interpreter.interpLoop (fuel + 1) (interp.Registers.getD 0 0) interp out =
          Interpreter.interpLoop fuel (interp.Registers.getD 0 0)
            { interp with PC := T } out) := by
  obtain ⟨h1, h2, h3⟩ := Interpreter.JumpTo_spec interp T hlen hpc0 hbound hmax
  have hd := Interpreter.DecodeAndDispatch_jump interp T
  refine ⟨⟨fun he => ?_, fun hT => ?_⟩, ⟨fun he => ?_, fun hB => ?_⟩,
    fun hT hB hfetch hcl fuel out => ?_⟩
  · by_cases hT : T ≤ interp.PC
    · exact hT
    · exfalso
      by_cases hB : interp.Registers.getD 0 0 ≤ T
      · rw [hd, h2 (by omega) hB] at he
        simp at he
      · rw [hd, h3 (by omega) (by omega)] at he
        simp at he
  · rw [hd, h1 hT]
  · by_cases hB : interp.Registers.getD 0 0 ≤ T
    · exact hB
    · exfalso
      by_cases hT : T ≤ interp.PC
      · rw [hd, h1 hT] at he
        simp at he
      · rw [hd, h3 (by omega) (by omega)] at he
        simp at he
  · rw [hd, h2 (by omega) hB]
  · rw [Interpreter.interpLoop, if_pos hbound, if_pos ⟨hpc0, hcl⟩, hfetch, hd,
      h3 hT hB]
    have : T - 1 + 1 = T := by omega
    simp [this]

theorem isDigitB_range {b : Nat} (h : isDigitB b = true) : 48 ≤ b ∧ b ≤ 57 := by
  simpa [isDigitB] using h

theorem isSpaceB_of_digit {b : Nat} (h : isDigitB b = true) :
    isSpaceB b = false := by
  obtain ⟨h1, h2⟩ := isDigitB_range h
  simp [isSpaceB]
  omega

/-- Claim C5 (amended): a nonnegative integer literal (a digit run preceded
by a space or comma delimiter) whose value fits in 32-bit signed range lexes
to an INT token with exactly that value; a digit run whose value exceeds
2147483647 fails with the integer-conversion error.  (Negative literals do
not lex at all — see the counterexample — so the lexable range is
[0, 2147483647], not [-2147483648, 2147483647].) -/
theorem claim_C5_integer_literals (lex : Lexer)
    (hdel : lex.Delimiter = true) (hdig : isDigitB lex.currentChar = true) :
    ((natOfDigits (digitRun lex.input lex.position) : Int) ≤ maxInt32 →
      lex.GetNextToken =
        .ok (Token.New .INT (natOfDigits (digitRun lex.input lex.position)),
          ⟨lex.input, lex.position + (digitRun lex.input lex.position).length⟩)) ∧
    (maxInt32 < (natOfDigits (digitRun lex.input lex.position) : Int) →
      lex.GetNextToken = .error .intConvert) := by
  obtain ⟨h48, h57⟩ := isDigitB_range hdig
  have hzero : lex.currentChar ≠ 0 := by omega
  have hnospace : isSpaceB lex.currentChar = false := by
    simp [isSpaceB]
    omega
  have hskip : lex.IgnoreWhiteSpace = lex :=
    Lexer.IgnoreWhiteSpace_not_space lex hnospace
  have hds : digitRun lex.input lex.position =
      lex.currentChar :: digitRun lex.input (lex.position + 1) :=
    digitRun_cons hzero hdig
  have hne : (digitRun lex.input lex.position).isEmpty = false := by
    rw [hds]
    rfl
  have hint := Lexer.Integer_spec lex (Or.inr hdel)
  rw [hne] at hint
  constructor
  · intro hle
    rw [if_neg (by simp), if_neg (by omega)] at hint
    unfold Lexer.GetNextToken
    rw [hskip]
    unfold Lexer.getNextTokenDispatch
    rw [if_neg hzero, if_neg (by omega), if_pos hdig, hint]
  · intro hgt
    rw [if_neg (by simp), if_pos (by omega)] at hint
    unfold Lexer.GetNextToken
    rw [hskip]
    unfold Lexer.getNextTokenDispatch
    rw [if_neg hzero, if_neg (by omega), if_pos hdig, hint]

theorem claim_C4_neg (lex : Lexer)
    (hmark : lex.currentChar = 114 ∨ lex.currentChar = 82)
    (hdelim : lex.Delimiter = false) :
    lex.GetNextToken = .error .regMissingDelimiter := by
  have hnospace : isSpaceB lex.currentChar = false := by
    rcases hmark with h | h <;> simp [h, isSpaceB]
  have hzero : lex.currentChar ≠ 0 := by
    rcases hmark with h | h <;> omega
  unfold Lexer.GetNextToken
  rw [Lexer.IgnoreWhiteSpace_not_space lex hnospace]
  unfold Lexer.getNextTokenDispatch
  rw [if_neg hzero, if_pos hmark]
  unfold Lexer.RegisterIndex
  rw [if_pos (by simp [hdelim])]

theorem claim_C4_pos (lex : Lexer)
    (hmark : lex.currentChar = 114 ∨ lex.currentChar = 82)
    (hdelim : lex.Delimiter = true)
    (hdig : isDigitB (lex.input.getD (lex.position + 1) 0) = true)
    (hstop : isDigitB (lex.input.getD (lex.position + 2) 0) = false) :
    lex.GetNextToken =
      .ok (Token.New .REG (((lex.input.getD (lex.position + 1) 0 - 48 : Nat) : Int)),
        ⟨lex.input, lex.position + 2⟩) := by
  obtain ⟨h48, h57⟩ := isDigitB_range hdig
  have hnospace : isSpaceB lex.currentChar = false := by
    rcases hmark with h | h <;> simp [h, isSpaceB]
  have hzero : lex.currentChar ≠ 0 := by
    rcases hmark with h | h <;> omega
  unfold Lexer.GetNextToken
  rw [Lexer.IgnoreWhiteSpace_not_space lex hnospace]
  unfold Lexer.getNextTokenDispatch
  rw [if_neg hzero, if_pos hmark]
  unfold Lexer.RegisterIndex
  rw [if_neg (by simp [hdelim])]
  have hcc1 : lex.GetNextChar.currentChar = lex.input.getD (lex.position + 1) 0 := rfl
  have hnegsp : ¬(isSpaceB lex.GetNextChar.currentChar = true) := by
    rw [hcc1, isSpaceB_of_digit hdig]
    simp
  rw [if_neg hnegsp]
  have hreg : lex.GetNextChar.Register = true := by
    unfold Lexer.Register
    rcases hmark with h | h <;>
      simp [Lexer.GetNextChar, Lexer.currentChar] at h ⊢ <;> simp [h]
  have hint := Lexer.Integer_spec lex.GetNextChar (Or.inl hreg)
  have hds : digitRun lex.GetNextChar.input lex.GetNextChar.position =
      [lex.input.getD (lex.position + 1) 0] := by
    show digitRun lex.input (lex.position + 1) = _
    rw [digitRun_cons (by omega) hdig, digitRun_nil (by
      intro hc
      rw [hstop] at hc
      exact Bool.noConfusion hc.2)]
  rw [hds] at hint
  have hval : natOfDigits [lex.input.getD (lex.position + 1) 0] =
      lex.input.getD (lex.position + 1) 0 - 48 := by
    simp [natOfDigits]
  rw [if_neg (by simp), if_neg (by
    rw [hval]
    unfold maxInt32
    omega)] at hint
  rw [hint]
  dsimp only []
  rw [hval]
  rw [if_neg (by omega)]
  rfl

/-- Claim C1 witness: the theorem instantiated at address 2 of the jump
scenario program with target 4 (bound 5 in register 0). -/
theorem claim_C1_witness :
    (jumpStateExample.DecodeAndDispatch (some (.unary OPCODE_JUMP 4)) =
        .error (.jumpInfiniteLoop jumpStateExample.PC 4) ↔
      (4 : Int) ≤ jumpStateExample.PC) ∧
    (jumpStateExample.DecodeAndDispatch (some (.unary OPCODE_JUMP 4)) =
        .error .jumpSegfault ↔ jumpStateExample.Registers.getD 0 0 ≤ 4) ∧
    (jumpStateExample.PC < 4 → 4 < jumpStateExample.Registers.getD 0 0 →
      jumpStateExample.Code.getD jumpStateExample.PC.toNat none =
        some (.unary OPCODE_JUMP 4) →
      jumpStateExample.PC.toNat < jumpStateExample.Code.length →
      ∀ (fuel : Nat) (out : List Output),
        Interpreter.interpLoop (fuel + 1) (jumpStateExample.Registers.getD 0 0)
            jumpStateExample out =
          Interpreter.interpLoop fuel (jumpStateExample.Registers.getD 0 0)
            { jumpStateExample with PC := 4 } out) :=
  claim_C1_jump_semantics jumpStateExample 4 rfl (by decide) (by decide) (by decide)

/-- Claim C2 (code bug): the orchestrator's code block is not growable — it
is allocated once with 10 nil slots (`CodeSize` 0), `ParseInstructions` fills
exactly one slot per line while slots remain (10 lines parse to a block of
length 10 with `CodeSize` 10), and on an 11th line the write
`Code[CodeSize]` lands outside the allocated block: a Go index-out-of-range
panic, not an append. -/
theorem claim_C2_codeblock_fixed_size :
    NewVirtualMemory = ⟨List.replicate 10 0, List.replicate 10 none, 0⟩ ∧
    VirtualMachine.ParseInstructions (List.replicate 10 printrLine)
        NewVirtualMemory =
      .ok ⟨List.replicate 10 0,
        List.replicate 10 (some (.nullary OPCODE_PRINTR)), 10⟩ ∧
    VirtualMachine.ParseInstructions (List.replicate 11 printrLine)
        NewVirtualMemory = .error .goPanic :=
  ⟨rfl, rfl, rfl⟩

/-- Claim C3 (code bug): executing ADD with destination register 0 performs
the write, the write fails with the read-only error, but `Add` discards that
error (the `interp.WriteTo(ri,result)` call at interpreter.go:217 has no
error check), returns nil, and the whole two-line program
`LDI r1,5` / `ADD r0,r1` runs to completion with no error — the runtime
error does not abort interpretation. -/
theorem claim_C3_add_r0_swallowed :
    Interpreter.Add ⟨1, [2, 5, 0, 0, 0, 0, 0, 0, 0, 0], []⟩ 0 1 =
      .ok ⟨1, [2, 5, 0, 0, 0, 0, 0, 0, 0, 0], []⟩ ∧
    Interpreter.WriteTo [2, 5, 0, 0, 0, 0, 0, 0, 0, 0] 0 (wrap32 (2 + 5)) =
      .error .writeR0ReadOnly ∧
    VirtualMachine.Execute addToR0Lines =
      .ran (.halted ⟨2, [2, 5, 0, 0, 0, 0, 0, 0, 0, 0],
        [some (.binary OPCODE_LDI 1 5), some (.binary OPCODE_ADD 0 1),
         none, none, none, none, none, none, none, none]⟩ []) :=
  ⟨rfl, rfl, rfl⟩

/-- Claim C4 counterexample: lexing `r1` at start-of-line does not produce a
REG token — it fails with the missing-delimiter error, refuting the claim
that start-of-line counts as a delimiter. -/
theorem claim_C4_counterexample :
    (Lexer.New (strToBytes (r"r1"))).GetNextToken =
      .error .regMissingDelimiter := rfl

/-- Claim C4 (amended): a register marker (`r`/`R`) counts as delimited only
when the byte immediately before it is a space or a comma; start-of-line does
NOT count, so a marker whose `Delimiter()` check fails — including at
position 0 — fails with the missing-delimiter error, and a marker that is
delimited and followed by a single digit lexes to the REG token with that
digit's value. -/
theorem claim_C4_register_marker_delimiter :
    (∀ lex : Lexer,
      (lex.currentChar = 114 ∨ lex.currentChar = 82) →
      lex.Delimiter = false →
      lex.GetNextToken = .error .regMissingDelimiter) ∧
    (∀ lex : Lexer,
      (lex.currentChar = 114 ∨ lex.currentChar = 82) →
      lex.Delimiter = true →
      isDigitB (lex.input.getD (lex.position + 1) 0) = true →
      isDigitB (lex.input.getD (lex.position + 2) 0) = false →
      lex.GetNextToken =
        .ok (Token.New .REG
            (((lex.input.getD (lex.position + 1) 0 - 48 : Nat) : Int)),
          ⟨lex.input, lex.position + 2⟩)) :=
  ⟨claim_C4_neg, claim_C4_pos⟩

/-- Claim C4 witness: the start-of-line failure on `r1` and the delimited
success on the `r1` of `,r1`. -/
theorem claim_C4_witness :
    (Lexer.New (strToBytes (r"r1"))).GetNextToken =
        .error .regMissingDelimiter ∧
    Lexer.GetNextToken ⟨strToBytes (r",r1"), 1⟩ =
      .ok (Token.New .REG 1, ⟨strToBytes (r",r1"), 3⟩) :=
  ⟨claim_C4_register_marker_delimiter.1 (Lexer.New (strToBytes (r"r1")))
      (Or.inl rfl) rfl,
   claim_C4_register_marker_delimiter.2 ⟨strToBytes (r",r1"), 1⟩
      (Or.inl rfl) rfl rfl rfl⟩

/-- Claim C5 counterexample: the in-range literal -1, preceded by a space
delimiter, does not lex — the minus sign is rejected as an invalid
character (byte 45), refuting the claim for negative literals. -/
theorem claim_C5_counterexample :
    (Lexer.New (strToBytes (r" -1"))).GetNextToken =
      .error (.invalidCharacter 45) := rfl

/-- Claim C5 witness: the theorem instantiated on the literal 42 of the line
` 42` (digit run of value 42, within the 32-bit range). -/
theorem claim_C5_witness :
    ((natOfDigits (digitRun (strToBytes (r" 42")) 1) : Int) ≤ maxInt32 →
      Lexer.GetNextToken ⟨strToBytes (r" 42"), 1⟩ =
        .ok (Token.New .INT (natOfDigits (digitRun (strToBytes (r" 42")) 1)),
          ⟨strToBytes (r" 42"),
            1 + (digitRun (strToBytes (r" 42")) 1).length⟩)) ∧
    (maxInt32 < (natOfDigits (digitRun (strToBytes (r" 42")) 1) : Int) →
      Lexer.GetNextToken ⟨strToBytes (r" 42"), 1⟩ = .error .intConvert) :=
  claim_C5_integer_literals ⟨strToBytes (r" 42"), 1⟩ rfl rfl

/-- Claim C6: register 0 is read-only during interpretation — every write to
it via `WriteTo` fails with the read-only error regardless of the value, a
whole interpreter run never changes register 0, parsing never touches the
registers, and the orchestrator's single write of the code-block length into
register 0 happens after parsing and before the interpreter is invoked. -/
theorem claim_C6_register0_readonly :
    (∀ (registers : List Int) (v : Int),
      Interpreter.WriteTo registers 0 v = .error .writeR0ReadOnly) ∧
    (∀ interp : Interpreter,
      interp.Interpret.outInterp.Registers.getD 0 0 =
        interp.Registers.getD 0 0) ∧
    (∀ (lines : List (List Nat)) (vMem vMem1 : VirtualMemory),
      VirtualMachine.ParseInstructions lines vMem = .ok vMem1 →
      vMem1.Registers = vMem.Registers) ∧
    (∀ (lines : List (List Nat)) (vMem1 : VirtualMemory),
      VirtualMachine.ParseInstructions lines NewVirtualMemory = .ok vMem1 →
      VirtualMachine.Execute lines =
        .ran (Interpreter.New (vMem1.Registers.set 0 (vMem1.CodeSize : Int))
          vMem1.Code).Interpret) :=
  ⟨Interpreter.WriteTo_reg0, Interpreter.Interpret_reg0,
   VirtualMachine.ParseInstructions_registers,
   fun lines vMem1 h => by
     unfold VirtualMachine.Execute
     rw [h]⟩

/-- Claim C6 witness: the theorem instantiated at a concrete register file, a
concrete interpreter state and the empty program. -/
theorem claim_C6_witness :
    Interpreter.WriteTo [4, 0, 0, 0, 0, 0, 0, 0, 0, 0] 0 7 =
        .error .writeR0ReadOnly ∧
    (Interpreter.Interpret
        ⟨0, [0, 5, 0, 0, 0, 0, 0, 0, 0, 0], []⟩).outInterp.Registers.getD 0 0 =
      (Interpreter.mk 0 [0, 5, 0, 0, 0, 0, 0, 0, 0, 0] []).Registers.getD 0 0 ∧
    NewVirtualMemory.Registers = NewVirtualMemory.Registers ∧
    VirtualMachine.Execute [] =
      .ran (Interpreter.New (NewVirtualMemory.Registers.set 0
        (NewVirtualMemory.CodeSize : Int)) NewVirtualMemory.Code).Interpret :=
  ⟨claim_C6_register0_readonly.1 [4, 0, 0, 0, 0, 0, 0, 0, 0, 0] 7,
   claim_C6_register0_readonly.2.1 ⟨0, [0, 5, 0, 0, 0, 0, 0, 0, 0, 0], []⟩,
   claim_C6_register0_readonly.2.2.1 [] NewVirtualMemory NewVirtualMemory rfl,
   claim_C6_register0_readonly.2.2.2 [] NewVirtualMemory rfl⟩

/-- Claim C7: the dispatch loop terminates for every code block and register
state — a loop budget of `lastAddr - PC` iterations is never exhausted,
because every successfully dispatched instruction leaves the program counter
no lower than before (jumps are strictly forward) and the loop then advances
it by one, so each iteration strictly shrinks `lastAddr - PC`; the loop ends
by reaching the bound or at the first error (a fetch panic included). -/
theorem claim_C7_termination :
    ∀ (fuel : Nat) (lastAddr : Int) (interp : Interpreter) (out : List Output),
      (lastAddr - interp.PC).toNat ≤ fuel →
      Interpreter.interpLoop fuel lastAddr interp out ≠ none :=
  Interpreter.interpLoop_ne_none

/-- Claim C7 witness: the theorem instantiated on a two-instruction program
with its exact budget. -/
theorem claim_C7_witness :
    Interpreter.interpLoop 2 2
      (Interpreter.New [2, 0, 0, 0, 0, 0, 0, 0, 0, 0]
        [some (.nullary OPCODE_PRINTR), some (.nullary OPCODE_PRINTR)]) [] ≠
      none :=
  claim_C7_termination 2 2
    (Interpreter.New [2, 0, 0, 0, 0, 0, 0, 0, 0, 0]
      [some (.nullary OPCODE_PRINTR), some (.nullary OPCODE_PRINTR)]) []
    (by decide)

/-- Claim C8: the full pipeline on the four-line program `LDI r1,1` /
`LDI r2,8` / `ADD r1,r2` / `STDOUT r1` parses, runs to completion from
zeroed registers and emits exactly the value 9. -/
theorem claim_C8_scenario :
    VirtualMachine.Execute scenarioLines =
      .ran (.halted ⟨4, [4, 9, 8, 0, 0, 0, 0, 0, 0, 0],
        [some (.binary OPCODE_LDI 1 1), some (.binary OPCODE_LDI 2 8),
         some (.binary OPCODE_ADD 1 2), some (.unary OPCODE_STDOUT 1),
         none, none, none, none, none, none]⟩
        [.printedInt 9]) := rfl

/-- Claim C9: every instruction the parser returns has its register-index
arguments in 0..9 (the register operand of STDOUT and LDI and both operands
of ADD and ADDV), and on the 10-register file, `read`/`write` at an index in
0..9 never take the invalid-register branch: the read succeeds, and the
write succeeds except at the read-only register 0, where it fails with the
read-only error instead. -/
theorem claim_C9_register_args :
    (∀ (input : List Nat) (p : Parser) (i : Instruction),
      Parser.New input = .ok p → p.Instruction = .ok i → RegArgsInRange i) ∧
    (∀ (registers : List Int) (i v : Int), registers.length = 10 →
      0 ≤ i → i ≤ 9 →
      Interpreter.ReadFrom registers i = .ok (registers.getD i.toNat 0) ∧
      (i = 0 → Interpreter.WriteTo registers i v = .error .writeR0ReadOnly) ∧
      (i ≠ 0 → Interpreter.WriteTo registers i v =
        .ok (registers.set i.toNat v))) := by
  constructor
  · intro input p i hnew hi
    exact parserInstruction_regArgs hnew hi
  · intro registers i v hlen h0 h9
    refine ⟨?_, fun hi0 => ?_, fun hne => ?_⟩
    · unfold Interpreter.ReadFrom
      rw [if_neg (by omega), if_pos (by constructor <;> omega)]
    · subst hi0
      exact Interpreter.WriteTo_reg0 registers v
    · unfold Interpreter.WriteTo
      rw [if_neg hne, if_neg (by omega), if_pos (by constructor <;> omega)]

/-- Claim C9 witness: the theorem instantiated on the parse of `ADD r1,r2`
and on register index 3 of a zeroed 10-register file. -/
theorem claim_C9_witness :
    RegArgsInRange (.binary OPCODE_ADD 1 2) ∧
    (Interpreter.ReadFrom (List.replicate 10 0) 3 =
        .ok ((List.replicate 10 (0 : Int)).getD (Int.toNat 3) 0) ∧
      ((3 : Int) = 0 → Interpreter.WriteTo (List.replicate 10 0) 3 7 =
        .error .writeR0ReadOnly) ∧
      ((3 : Int) ≠ 0 → Interpreter.WriteTo (List.replicate 10 0) 3 7 =
        .ok ((List.replicate 10 0).set (Int.toNat 3) 7))) :=
  ⟨claim_C9_register_args.1 (strToBytes (r"ADD r1,r2")) parserExampleADD
      (.binary OPCODE_ADD 1 2) rfl rfl,
   claim_C9_register_args.2 (List.replicate 10 0) 3 7 (by decide) (by decide)
      (by decide)⟩

/-- Claim C10: a line holding a complete valid instruction followed by one
more lexable token parses successfully to the instruction encoding only the
grammatical prefix — `JUMP 4 5` yields the same bytecode as `JUMP 4`, the
trailing token silently ignored. -/
theorem claim_C10_trailing_token :
    (Parser.New (strToBytes (r"JUMP 4 5"))).bind Parser.Instruction =
        .ok (.unary OPCODE_JUMP 4) ∧
    (Parser.New (strToBytes (r"JUMP 4"))).bind Parser.Instruction =
        .ok (.unary OPCODE_JUMP 4) :=
  ⟨rfl, rfl⟩
